import Mathlib

/- A shallow embedding of src/bin/vite-ts-tw.js, the setup orchestrator of the
   npx-boilerplate-react-ts-tw scaffolding CLI.  External command outcomes, file
   reads/writes and the single interactive prompt reply are modelled by a
   `World` record; each orchestration function of the source becomes a pure
   function from a world to the list of performed side effects together with
   the way the process ends. -/

namespace ViteTsTw

/-- Claim-model: the six entries of the RUN_COMMAND table (vite-ts-tw.js lines 26-33). -/
inductive Cmd where
  | installViteTs
  | installTailwind
  | initializeTailwind
  | initializeGit
  | changeBranch
  | installDependencies
  deriving DecidableEq

/-- The two generated files touched by the patch steps. -/
inductive FileId where
  | tailwindConfig
  | indexCss
  deriving DecidableEq

/-- Observable side effects of a run, in order of occurrence. -/
inductive Event where
  | exec (c : Cmd)
  | readFile (f : FileId)
  | writeFile (f : FileId) (content : String)
  | prompt
  | banner
  deriving DecidableEq

/-- How the process ends: an explicit process.exit with a code, or the event
loop draining with nothing scheduled (Node then terminates with status 0). -/
inductive ExitKind where
  | exited (code : Int)
  | fellThrough
  deriving DecidableEq

/-- Effective process exit status of either kind of termination. -/
def exitStatus : ExitKind → Int
  | ExitKind.exited c => c
  | ExitKind.fellThrough => 0

/-- Whitespace characters removed by JS String.prototype.trim: the ECMAScript
WhiteSpace class (TAB, VT, FF, SP, NBSP, ZWNBSP and every Unicode
Space_Separator character, i.e. OGHAM SPACE MARK, U+2000..U+200A, NARROW
NO-BREAK SPACE, MEDIUM MATHEMATICAL SPACE, IDEOGRAPHIC SPACE) together with
the LineTerminator class (LF, CR, LINE SEPARATOR, PARAGRAPH SEPARATOR). -/
def jsWhitespace (c : Char) : Bool :=
  c == ' ' || c == '\t' || c == '\n' || c == '\r' || c == '\x0b' || c == '\x0c' ||
  c == '\xa0' || c == '\u1680' || (0x2000 ≤ c.toNat && c.toNat ≤ 0x200a) ||
  c == '\u2028' || c == '\u2029' || c == '\u202f' || c == '\u205f' ||
  c == '\u3000' || c == '\ufeff'

/-- Model of JS String.prototype.trim: strip leading and trailing whitespace. -/
def jsTrim (s : String) : String :=
  ⟨((s.data.dropWhile jsWhitespace).reverse.dropWhile jsWhitespace).reverse⟩

/-- Model of JS String.prototype.toLowerCase, character-wise; `Char.toLower`
lower-cases exactly the basic latin letters, which covers the inputs the
program compares against ("y" / ""). -/
def jsToLower (s : String) : String :=
  ⟨s.data.map Char.toLower⟩

/-- Replace the first (leftmost) occurrence of `pat` in the list by `repl`;
when `pat` does not occur the list is returned unchanged.  This is the
semantics of JS String.prototype.replace with a non-global literal regex. -/
def replaceFirstAux (pat repl : List Char) : List Char → List Char
  | [] => []
  | c :: rest =>
    if pat.isPrefixOf (c :: rest) then repl ++ (c :: rest).drop pat.length
    else c :: replaceFirstAux pat repl rest

/-- String-level first-occurrence replacement. -/
def jsReplaceFirst (pat repl s : String) : String :=
  ⟨replaceFirstAux pat.data repl.data s.data⟩

/-- Number of positions of the list at which `pat` occurs as a prefix of the
corresponding suffix (overlapping occurrences are all counted). -/
def countMatches (pat : List Char) : List Char → Nat
  | [] => 0
  | c :: rest => (if pat.isPrefixOf (c :: rest) then 1 else 0) + countMatches pat rest

/-- The pattern of the config patch: the regex of line 93 is a literal match. -/
def contentPattern : String := "content: []"

/-- The replacement of the config patch (line 94): a two-element list of an
HTML entry-point path and a glob over source files. -/
def contentReplacement : String :=
  "content: [\"./index.html\", \"./src/**/*.\x7bjs,ts,jsx,tsx\x7d\"]"

/-- Text transformation of updateTailwindConfig (lines 92-95). -/
def patchConfig (data : String) : String :=
  jsReplaceFirst contentPattern contentReplacement data

/-- One directive line of the block prepended by updateIndexCss. -/
def importBase : String := "@import \x27tailwindcss/base\x27;"

/-- Second directive line of the prepended block. -/
def importComponents : String := "@import \x27tailwindcss/components\x27;"

/-- Third directive line of the prepended block. -/
def importUtilities : String := "@import \x27tailwindcss/utilities\x27;"

/-- The full text prepended by updateIndexCss (line 120): three import
directive lines, each terminated by a newline, followed by one blank line. -/
def tailwindDirectives : String :=
  "@import \x27tailwindcss/base\x27;\n@import \x27tailwindcss/components\x27;\n@import \x27tailwindcss/utilities\x27;\n\n"

/-- Text transformation of updateIndexCss (line 120). -/
def updatedCss (data : String) : String :=
  tailwindDirectives ++ data

/-- The prompt condition of promptUser (lines 145-146):
answer.trim().toLowerCase() === "y" || answer.trim() === "". -/
def shouldInitializeGit (answer : String) : Bool :=
  jsToLower (jsTrim answer) == "y" || jsTrim answer == ""

/-- The environment a run is carried out in: the command-line argument, the
success of each external command, the outcome of the four file operations
(a read yields `none` when readFileSync throws, a write flag is false when
writeFileSync throws) and the reply typed at the prompt. -/
structure World where
  argv2 : Option String
  cmdOk : Cmd → Bool
  configRead : Option String
  configWriteOk : Bool
  cssRead : Option String
  cssWriteOk : Bool
  answer : String

/-- continueSetup (lines 186-212): run INSTALL_DEPENDENCIES (its failure is
only logged), print the completion banner and exit 0. -/
def continueSetup (_w : World) : List Event × ExitKind :=
  ([Event.exec Cmd.installDependencies, Event.banner], ExitKind.exited 0)

/-- executeGitInitialization (lines 165-179): INITIALIZE_GIT failure is fatal
(process.exit(-1)); on its success CHANGE_BRANCH runs, whose failure is only
logged and reaches no continuation (the function returns and the event loop
drains), while on success continueSetup runs. -/
def executeGitInitialization (w : World) : List Event × ExitKind :=
  if w.cmdOk Cmd.initializeGit = false then
    ([Event.exec Cmd.initializeGit], ExitKind.exited (-1))
  else if w.cmdOk Cmd.changeBranch = false then
    ([Event.exec Cmd.initializeGit, Event.exec Cmd.changeBranch], ExitKind.fellThrough)
  else
    (Event.exec Cmd.initializeGit :: Event.exec Cmd.changeBranch :: (continueSetup w).1,
     (continueSetup w).2)

/-- promptUser (lines 140-157): ask once, then branch on the reply. -/
def promptUser (w : World) : List Event × ExitKind :=
  if shouldInitializeGit w.answer then
    (Event.prompt :: (executeGitInitialization w).1, (executeGitInitialization w).2)
  else
    (Event.prompt :: (continueSetup w).1, (continueSetup w).2)

/-- updateIndexCss (lines 113-133): read src/index.css, prepend the directive
block, write back; any thrown read/write error exits -1, otherwise the
callback (promptUser) runs. -/
def updateIndexCss (w : World) : List Event × ExitKind :=
  match w.cssRead with
  | none => ([Event.readFile FileId.indexCss], ExitKind.exited (-1))
  | some data =>
    if w.cssWriteOk then
      (Event.readFile FileId.indexCss ::
         Event.writeFile FileId.indexCss (updatedCss data) :: (promptUser w).1,
       (promptUser w).2)
    else
      ([Event.readFile FileId.indexCss, Event.writeFile FileId.indexCss (updatedCss data)],
       ExitKind.exited (-1))

/-- updateTailwindConfig (lines 85-105): read tailwind.config.ts, replace the
content declaration, write back; any thrown read/write error exits -1,
otherwise updateIndexCss runs. -/
def updateTailwindConfig (w : World) : List Event × ExitKind :=
  match w.configRead with
  | none => ([Event.readFile FileId.tailwindConfig], ExitKind.exited (-1))
  | some data =>
    if w.configWriteOk then
      (Event.readFile FileId.tailwindConfig ::
         Event.writeFile FileId.tailwindConfig (patchConfig data) :: (updateIndexCss w).1,
       (updateIndexCss w).2)
    else
      ([Event.readFile FileId.tailwindConfig,
        Event.writeFile FileId.tailwindConfig (patchConfig data)],
       ExitKind.exited (-1))

/-- executeTailwindInitialization (lines 69-77): INITIALIZE_TAILWIND failure is
fatal (process.exit(-1)); on success the two patches run. -/
def executeTailwindInitialization (w : World) : List Event × ExitKind :=
  if w.cmdOk Cmd.initializeTailwind = false then
    ([Event.exec Cmd.initializeTailwind], ExitKind.exited (-1))
  else
    (Event.exec Cmd.initializeTailwind :: (updateTailwindConfig w).1,
     (updateTailwindConfig w).2)

/-- The whole program (lines 8-12 and 215-230): validate the argument, run
INSTALL_VITE_TS and INSTALL_TAILWIND (failures only logged), then hand over to
executeTailwindInitialization with promptUser as the continuation. -/
def run (w : World) : List Event × ExitKind :=
  match w.argv2 with
  | none => ([], ExitKind.exited (-1))
  | some d =>
    if d = "" then ([], ExitKind.exited (-1))
    else
      (Event.exec Cmd.installViteTs :: Event.exec Cmd.installTailwind ::
         (executeTailwindInitialization w).1,
       (executeTailwindInitialization w).2)

end ViteTsTw

namespace ViteTsTw

/-- Claim C5: for every invocation whose first positional argument is missing
or empty, the program exits with a non-zero status and performs no external
command invocations and no file operations (and never prompts). -/
theorem C5_theorem (w : World) (h : w.argv2 = none ∨ w.argv2 = some ("")) :
    (∀ c, Event.exec c ∉ (run w).1) ∧ (∀ f, Event.readFile f ∉ (run w).1) ∧
    (∀ f s, Event.writeFile f s ∉ (run w).1) ∧ Event.prompt ∉ (run w).1 ∧
    exitStatus (run w).2 ≠ 0 := by
  have htr : (run w).1 = [] ∧ (run w).2 = ExitKind.exited (-1) := by
    rcases h with h | h <;> simp [run, h]
  rw [htr.1, htr.2]
  simp [exitStatus]

/-- Claim C5, witness: a run with no argument exits non-zero and in particular
never invokes the scaffolding command. -/
theorem C5_witness :
    exitStatus (run ⟨none, fun _ => true, none, true, none, true, ""⟩).2 ≠ 0 ∧
    Event.exec Cmd.installViteTs ∉ (run ⟨none, fun _ => true, none, true, none, true, ""⟩).1 := by
  have h := C5_theorem ⟨none, fun _ => true, none, true, none, true, ""⟩ (Or.inl rfl)
  exact ⟨h.2.2.2.2, h.1 Cmd.installViteTs⟩

/-- Claim C4: for every run in which the styling-config initialization command
exits with failure, the orchestrator terminates with a non-zero status, neither
file patch is applied (no file is even read) and the prompt is never issued. -/
theorem C4_theorem (w : World) (d : String) (h1 : w.argv2 = some d) (h2 : d ≠ "")
    (h3 : w.cmdOk Cmd.initializeTailwind = false) :
    exitStatus (run w).2 ≠ 0 ∧ (∀ f s, Event.writeFile f s ∉ (run w).1) ∧
    (∀ f, Event.readFile f ∉ (run w).1) ∧ Event.prompt ∉ (run w).1 := by
  have htr : (run w).1 = [Event.exec Cmd.installViteTs, Event.exec Cmd.installTailwind,
      Event.exec Cmd.initializeTailwind] ∧ (run w).2 = ExitKind.exited (-1) := by
    simp [run, h1, h2, executeTailwindInitialization, h3]
  rw [htr.1, htr.2]
  refine ⟨by decide, fun f s => ?_, fun f => ?_, by decide⟩ <;> simp

/-- Claim C4, witness: with only the styling-config command failing, the run
exits non-zero without patching the config file or prompting. -/
theorem C4_witness :
    exitStatus (run ⟨some ("my-app"), fun c => !(c == Cmd.initializeTailwind),
      some ("content: []"), true, some ("body\x7b\x7d"), true, ""⟩).2 ≠ 0 ∧
    Event.prompt ∉ (run ⟨some ("my-app"), fun c => !(c == Cmd.initializeTailwind),
      some ("content: []"), true, some ("body\x7b\x7d"), true, ""⟩).1 := by
  have h := C4_theorem ⟨some ("my-app"), fun c => !(c == Cmd.initializeTailwind),
      some ("content: []"), true, some ("body\x7b\x7d"), true, ""⟩ ("my-app") rfl
      (by decide) (by decide)
  exact ⟨h.1, h.2.2.2⟩

/-- Claim C2, counterexample: in a run where only the version-control init
command fails (reply accepts the prompt, everything else succeeds), the
orchestrator does NOT exit 0 and never prints the completion banner,
contradicting the claim. -/
theorem C2_counterexample :
    (run ⟨some ("my-app"), fun c => !(c == Cmd.initializeGit), some ("content: []"), true,
      some ("body\x7b\x7d"), true, ""⟩).2 ≠ ExitKind.exited 0 ∧
    Event.banner ∉ (run ⟨some ("my-app"), fun c => !(c == Cmd.initializeGit),
      some ("content: []"), true, some ("body\x7b\x7d"), true, ""⟩).1 := by
  decide

/-- Claim C2 (amended): for every run in which the version-control init command
fails, the prompt accepts, and every other command and file operation succeeds,
the orchestrator terminates via process.exit(-1) and the completion banner is
never printed. -/
theorem C2_amended (w : World) (d : String) (h1 : w.argv2 = some d) (h2 : d ≠ "")
    (h3 : ∀ c, c ≠ Cmd.initializeGit → w.cmdOk c = true)
    (h4 : w.cmdOk Cmd.initializeGit = false)
    (h5 : ∃ s, w.configRead = some s) (h6 : w.configWriteOk = true)
    (h7 : ∃ s, w.cssRead = some s) (h8 : w.cssWriteOk = true)
    (h9 : shouldInitializeGit w.answer = true) :
    (run w).2 = ExitKind.exited (-1) ∧ Event.banner ∉ (run w).1 := by
  obtain ⟨cs, hcs⟩ := h5
  obtain ⟨ss, hss⟩ := h7
  have htw := h3 Cmd.initializeTailwind (by decide)
  simp [run, h1, h2, executeTailwindInitialization, htw, updateTailwindConfig, hcs, h6,
        updateIndexCss, hss, h8, promptUser, h9, executeGitInitialization, h4]

/-- Claim C2, witness of the amended statement: a concrete such run exits -1
without a banner. -/
theorem C2_witness :
    (run ⟨some ("my-app"), fun c => !(c == Cmd.initializeGit), some ("content: []"), true,
      some ("body\x7b\x7d"), true, "Y"⟩).2 = ExitKind.exited (-1) ∧
    Event.banner ∉ (run ⟨some ("my-app"), fun c => !(c == Cmd.initializeGit),
      some ("content: []"), true, some ("body\x7b\x7d"), true, "Y"⟩).1 :=
  C2_amended ⟨some ("my-app"), fun c => !(c == Cmd.initializeGit), some ("content: []"), true,
      some ("body\x7b\x7d"), true, "Y"⟩ ("my-app") rfl (by decide)
    (fun c h => by cases c <;> first | rfl | exact absurd rfl h) (by decide)
    ⟨("content: []"), rfl⟩ rfl ⟨("body\x7b\x7d"), rfl⟩ rfl (by decide)

/-- Claim C3, counterexample: in a run where version-control init succeeds but
the branch rename fails (everything else succeeding), the dependency
installation command is never run and the completion banner is never printed,
contradicting the claim that the run proceeds to Continue Setup. -/
theorem C3_counterexample :
    Event.exec Cmd.installDependencies ∉ (run ⟨some ("my-app"),
      fun c => !(c == Cmd.changeBranch), some ("content: []"), true,
      some ("body\x7b\x7d"), true, ""⟩).1 ∧
    Event.banner ∉ (run ⟨some ("my-app"), fun c => !(c == Cmd.changeBranch),
      some ("content: []"), true, some ("body\x7b\x7d"), true, ""⟩).1 := by
  decide

/-- Claim C3 (amended): when version-control init succeeds and the branch
rename fails (all else succeeding), the error is non-fatal but Continue Setup
is never invoked: the run ends with the event loop draining (implicit status
0), without running the dependency installation and without the banner. -/
theorem C3_amended (w : World) (d : String) (h1 : w.argv2 = some d) (h2 : d ≠ "")
    (h3 : w.cmdOk Cmd.initializeTailwind = true)
    (h5 : ∃ s, w.configRead = some s) (h6 : w.configWriteOk = true)
    (h7 : ∃ s, w.cssRead = some s) (h8 : w.cssWriteOk = true)
    (h9 : shouldInitializeGit w.answer = true)
    (h10 : w.cmdOk Cmd.initializeGit = true) (h11 : w.cmdOk Cmd.changeBranch = false) :
    (run w).2 = ExitKind.fellThrough ∧ exitStatus (run w).2 = 0 ∧
    Event.exec Cmd.installDependencies ∉ (run w).1 ∧ Event.banner ∉ (run w).1 := by
  obtain ⟨cs, hcs⟩ := h5
  obtain ⟨ss, hss⟩ := h7
  simp [run, h1, h2, executeTailwindInitialization, h3, updateTailwindConfig, hcs, h6,
        updateIndexCss, hss, h8, promptUser, h9, executeGitInitialization, h10, h11,
        exitStatus]

/-- Claim C3, witness of the amended statement at a concrete run. -/
theorem C3_witness :
    exitStatus (run ⟨some ("my-app"), fun c => !(c == Cmd.changeBranch), some ("content: []"),
      true, some ("body\x7b\x7d"), true, "y"⟩).2 = 0 ∧
    Event.exec Cmd.installDependencies ∉ (run ⟨some ("my-app"),
      fun c => !(c == Cmd.changeBranch), some ("content: []"), true,
      some ("body\x7b\x7d"), true, "y"⟩).1 := by
  have h := C3_amended ⟨some ("my-app"), fun c => !(c == Cmd.changeBranch),
      some ("content: []"), true, some ("body\x7b\x7d"), true, "y"⟩ ("my-app") rfl
      (by decide) (by decide) ⟨("content: []"), rfl⟩ rfl ⟨("body\x7b\x7d"), rfl⟩ rfl (by decide)
      (by decide) (by decide)
  exact ⟨h.2.1, h.2.2.1⟩

/-- Claim C1, counterexample: the claim that only three conditions are fatal
and that init-vcs and rename-branch failures continue toward the banner is
false: a failing init-vcs run exits -1, and a failing rename-branch run never
reaches the banner. -/
theorem C1_counterexample :
    (run ⟨some ("app"), fun c => !(c == Cmd.initializeGit), some ("content: []"), true,
      some ("p\x7b\x7d"), true, "y"⟩).2 = ExitKind.exited (-1) ∧
    Event.banner ∉ (run ⟨some ("app"), fun c => !(c == Cmd.changeBranch),
      some ("content: []"), true, some ("p\x7b\x7d"), true, "y"⟩).1 := by
  decide

/-- Claim C1 (amended): once the argument is valid, a run exits via
process.exit(-1) exactly when the styling-config init fails, a patch file
operation fails, or the prompt selects version-control init and that command
fails; and the completion banner is printed exactly when none of these hold
and additionally a selected version-control branch does not end at a failing
branch rename.  Failures of create-project, install-styling-deps and
install-deps play no role in either condition. -/
theorem C1_amended (w : World) (d : String) (h1 : w.argv2 = some d) (h2 : d ≠ "") :
    ((run w).2 = ExitKind.exited (-1) ↔
      (w.cmdOk Cmd.initializeTailwind = false ∨ w.configRead = none ∨
       w.configWriteOk = false ∨ w.cssRead = none ∨ w.cssWriteOk = false ∨
       (shouldInitializeGit w.answer = true ∧ w.cmdOk Cmd.initializeGit = false))) ∧
    (Event.banner ∈ (run w).1 ↔
      (w.cmdOk Cmd.initializeTailwind = true ∧ w.configRead ≠ none ∧
       w.configWriteOk = true ∧ w.cssRead ≠ none ∧ w.cssWriteOk = true ∧
       (shouldInitializeGit w.answer = true →
         w.cmdOk Cmd.initializeGit = true ∧ w.cmdOk Cmd.changeBranch = true))) := by
  cases htw : w.cmdOk Cmd.initializeTailwind <;>
  cases hcr : w.configRead <;>
  cases hcw : w.configWriteOk <;>
  cases hsr : w.cssRead <;>
  cases hsw : w.cssWriteOk <;>
  cases hg : shouldInitializeGit w.answer <;>
  cases hgi : w.cmdOk Cmd.initializeGit <;>
  cases hbr : w.cmdOk Cmd.changeBranch <;>
  simp [run, h1, h2, executeTailwindInitialization, htw, updateTailwindConfig, hcr, hcw,
        updateIndexCss, hsr, hsw, promptUser, hg, executeGitInitialization, hgi, hbr,
        continueSetup]

/-- Claim C1, witness of the amended characterization: an all-success run
prints the banner. -/
theorem C1_witness :
    Event.banner ∈ (run ⟨some ("app"), fun _ => true, some ("content: []"), true,
      some ("p\x7b\x7d"), true, ""⟩).1 :=
  (C1_amended ⟨some ("app"), fun _ => true, some ("content: []"), true,
      some ("p\x7b\x7d"), true, ""⟩ ("app") rfl (by decide)).2.mpr (by decide)

end ViteTsTw

namespace ViteTsTw

theorem countMatches_cons (pat : List Char) (c : Char) (rest : List Char) :
    countMatches pat (c :: rest) =
      (if pat.isPrefixOf (c :: rest) then 1 else 0) + countMatches pat rest := rfl

theorem replaceFirstAux_eq_self {pat repl : List Char} (s : List Char)
    (h : countMatches pat s = 0) : replaceFirstAux pat repl s = s := by
  induction s with
  | nil => rfl
  | cons c rest ih =>
    rw [countMatches_cons] at h
    cases hp : pat.isPrefixOf (c :: rest) with
    | true => rw [hp] at h; simp at h
    | false =>
      rw [hp] at h
      simp only [Bool.false_eq_true, if_false, Nat.zero_add] at h
      simp [replaceFirstAux, hp, ih h]

theorem countMatches_ne_zero_of_isPrefixOf {pat s : List Char}
    (hne : pat ≠ []) (h : pat.isPrefixOf s = true) : countMatches pat s ≠ 0 := by
  cases s with
  | nil =>
    cases pat with
    | nil => exact absurd rfl hne
    | cons a as => simp [List.isPrefixOf] at h
  | cons c rest => rw [countMatches_cons, h]; simp

theorem countMatches_drop_le (pat : List Char) :
    ∀ (k : Nat) (s : List Char), countMatches pat (s.drop k) ≤ countMatches pat s := by
  intro k
  induction k with
  | zero => intro s; simp
  | succ n ih =>
    intro s
    cases s with
    | nil => simp
    | cons c rest =>
      calc countMatches pat ((c :: rest).drop (n + 1))
          = countMatches pat (rest.drop n) := by simp
        _ ≤ countMatches pat rest := ih rest
        _ ≤ countMatches pat (c :: rest) := by rw [countMatches_cons]; omega

theorem replaceFirstAux_first_match {pat : List Char} (repl : List Char) :
    ∀ s : List Char, countMatches pat s ≠ 0 →
      ∃ i, pat.isPrefixOf (s.drop i) = true ∧
        (∀ j, j < i → pat.isPrefixOf (s.drop j) = false) ∧
        replaceFirstAux pat repl s = s.take i ++ repl ++ s.drop (i + pat.length) := by
  intro s
  induction s with
  | nil => intro h; exact absurd rfl h
  | cons c rest ih =>
    intro h
    cases hp : pat.isPrefixOf (c :: rest) with
    | true =>
      refine ⟨0, by simpa using hp, fun j hj => absurd hj (Nat.not_lt_zero j), ?_⟩
      simp [replaceFirstAux, hp]
    | false =>
      rw [countMatches_cons, hp] at h
      simp only [Bool.false_eq_true, if_false, Nat.zero_add] at h
      obtain ⟨i, hm, hmin, heq⟩ := ih h
      refine ⟨i + 1, by simpa using hm, ?_, ?_⟩
      · intro j hj
        cases j with
        | zero => simpa using hp
        | succ j' => simpa using hmin j' (by omega)
      · have harith : i + 1 + pat.length = (i + pat.length) + 1 := by omega
        simp [replaceFirstAux, hp, heq, harith]

theorem prefix_append_cancel {A z B : List Char} (h : A ++ z <+: A ++ B) : z <+: B := by
  obtain ⟨t, ht⟩ := h
  rw [List.append_assoc] at ht
  exact ⟨t, List.append_cancel_left ht⟩

theorem countMatches_append_zero {pat : List Char} (hne : pat ≠ []) :
    ∀ u : List Char, countMatches pat u = 0 →
      (∀ i, i < u.length → (u.drop i).length < pat.length → (u.drop i).isPrefixOf pat = false) →
      ∀ t : List Char, countMatches pat t = 0 → countMatches pat (u ++ t) = 0 := by
  intro u
  induction u with
  | nil => intro _ _ t ht; simpa using ht
  | cons c u' ih =>
    intro hu hcond t ht
    have hu' : countMatches pat u' = 0 := by
      rw [countMatches_cons] at hu
      omega
    have hcond' : ∀ i, i < u'.length → (u'.drop i).length < pat.length →
        (u'.drop i).isPrefixOf pat = false := by
      intro i hi hl
      have := hcond (i + 1) (by simpa using Nat.succ_lt_succ hi) (by simpa using hl)
      simpa using this
    have hhead : pat.isPrefixOf ((c :: u') ++ t) = false := by
      cases hp : pat.isPrefixOf ((c :: u') ++ t) with
      | false => rfl
      | true =>
        exfalso
        have hp' : pat <+: (c :: u') ++ t := List.isPrefixOf_iff_prefix.mp hp
        by_cases hlen : pat.length ≤ (c :: u').length
        · have hpre : pat <+: (c :: u') :=
            List.prefix_of_prefix_length_le hp' (List.prefix_append _ _) hlen
          exact countMatches_ne_zero_of_isPrefixOf hne
            (List.isPrefixOf_iff_prefix.mpr hpre) hu
        · have hpre : (c :: u') <+: pat :=
            List.prefix_of_prefix_length_le (List.prefix_append _ _) hp' (by omega)
          have hc := hcond 0 (by simp) (by simp at hlen ⊢; omega)
          simp only [List.drop_zero] at hc
          exact absurd (List.isPrefixOf_iff_prefix.mpr hpre) (by simp [hc])
    calc countMatches pat ((c :: u') ++ t)
        = countMatches pat (c :: (u' ++ t)) := by simp
      _ = (if pat.isPrefixOf (c :: (u' ++ t)) then 1 else 0) + countMatches pat (u' ++ t) :=
          countMatches_cons pat c (u' ++ t)
      _ = 0 := by
          have h2 := ih hu' hcond' t ht
          have hhead' : pat.isPrefixOf (c :: (u' ++ t)) = false := by simpa using hhead
          rw [hhead', h2]
          simp

theorem countMatches_replaceFirstAux_eq_zero {pat repl : List Char} (hne : pat ≠ [])
    (hlen : pat.length ≤ repl.length)
    (hrNoMatch : countMatches pat repl = 0)
    (hrSuffix : ∀ i, i < repl.length → (repl.drop i).length < pat.length →
      (repl.drop i).isPrefixOf pat = false)
    (hpSuffix : ∀ k, k < pat.length → 0 < k → (pat.drop k).isPrefixOf repl = false) :
    ∀ s : List Char, countMatches pat s ≤ 1 →
      countMatches pat (replaceFirstAux pat repl s) = 0 := by
  intro s
  induction s with
  | nil => intro _; rfl
  | cons c rest ih =>
    intro hle
    have hpatpos : 0 < pat.length := List.length_pos.mpr hne
    cases hp : pat.isPrefixOf (c :: rest) with
    | true =>
      have hres : replaceFirstAux pat repl (c :: rest) =
          repl ++ (c :: rest).drop pat.length := by
        simp [replaceFirstAux, hp]
      rw [hres]
      have hrest0 : countMatches pat rest = 0 := by
        rw [countMatches_cons, hp] at hle
        simp at hle
        omega
      have hdrop0 : countMatches pat ((c :: rest).drop pat.length) = 0 := by
        cases pat with
        | nil => exact absurd rfl hne
        | cons p0 pt =>
          have h1 : (c :: rest).drop (p0 :: pt).length = rest.drop pt.length := by simp
          rw [h1]
          have := countMatches_drop_le (p0 :: pt) pt.length rest
          omega
      exact countMatches_append_zero hne repl hrNoMatch hrSuffix _ hdrop0
    | false =>
      have hres : replaceFirstAux pat repl (c :: rest) =
          c :: replaceFirstAux pat repl rest := by
        simp [replaceFirstAux, hp]
      rw [hres]
      have hrle : countMatches pat rest ≤ 1 := by
        rw [countMatches_cons, hp] at hle
        simpa using hle
      have htail := ih hrle
      have hhead : pat.isPrefixOf (c :: replaceFirstAux pat repl rest) = false := by
        by_cases h0 : countMatches pat rest = 0
        · rw [replaceFirstAux_eq_self rest h0]
          exact hp
        · obtain ⟨i, hm, hmin, heq⟩ := replaceFirstAux_first_match repl rest h0
          cases hcp : pat.isPrefixOf (c :: replaceFirstAux pat repl rest) with
          | false => rfl
          | true =>
            exfalso
            rw [heq] at hcp
            have hmlen : pat.length ≤ (rest.drop i).length :=
              (List.isPrefixOf_iff_prefix.mp hm).length_le
            rw [List.length_drop] at hmlen
            have hile : i + pat.length ≤ rest.length := by omega
            have htake : (rest.take i).length = i := by
              rw [List.length_take]
              omega
            have hassoc : c :: (rest.take i ++ repl ++ rest.drop (i + pat.length)) =
                (c :: rest.take i) ++ (repl ++ rest.drop (i + pat.length)) := by simp
            rw [hassoc] at hcp
            have hcp' : pat <+: (c :: rest.take i) ++ (repl ++ rest.drop (i + pat.length)) :=
              List.isPrefixOf_iff_prefix.mp hcp
            have hAlen : (c :: rest.take i).length = i + 1 := by simp [htake]
            by_cases hlen2 : pat.length ≤ i + 1
            · have h1 : pat <+: (c :: rest.take i) :=
                List.prefix_of_prefix_length_le hcp' (List.prefix_append _ _)
                  (by rw [hAlen]; exact hlen2)
              have h2 : (c :: rest.take i) <+: (c :: rest) :=
                List.cons_prefix_cons.mpr ⟨rfl, List.take_prefix i rest⟩
              exact absurd (List.isPrefixOf_iff_prefix.mpr (h1.trans h2)) (by simp [hp])
            · have hA : (c :: rest.take i) <+: pat :=
                List.prefix_of_prefix_length_le (List.prefix_append _ _) hcp'
                  (by rw [hAlen]; omega)
              obtain ⟨z, hz⟩ := hA
              have hzdrop : z = pat.drop (i + 1) := by
                rw [← hz, List.drop_left' hAlen]
              have hcp2 : (c :: rest.take i) ++ z <+:
                  (c :: rest.take i) ++ (repl ++ rest.drop (i + pat.length)) := by
                rw [hz]
                exact hcp'
              have hzpre : z <+: repl ++ rest.drop (i + pat.length) :=
                prefix_append_cancel hcp2
              have hzlen : z.length = pat.length - (i + 1) := by
                rw [hzdrop, List.length_drop]
              have hzrepl : z <+: repl :=
                List.prefix_of_prefix_length_le hzpre (List.prefix_append _ _) (by omega)
              have hforb := hpSuffix (i + 1) (by omega) (by omega)
              rw [← hzdrop] at hforb
              exact absurd (List.isPrefixOf_iff_prefix.mpr hzrepl) (by simp [hforb])
      rw [countMatches_cons, hhead, htail]
      simp

end ViteTsTw

namespace ViteTsTw

/-- Claim C6: for every config-file content, the patch replaces the first
occurrence of the empty content-list pattern by the two-element path list;
when the pattern is absent the content is unchanged, yet the file is still
written; and a read error or write error during this patch is fatal with a
non-zero exit status. -/
theorem C6_theorem (w : World) (d : String) (h1 : w.argv2 = some d) (h2 : d ≠ "")
    (h3 : w.cmdOk Cmd.initializeTailwind = true) :
    (∀ data, w.configRead = some data →
      (Event.writeFile FileId.tailwindConfig (patchConfig data) ∈ (run w).1 ∧
       (countMatches contentPattern.data data.data = 0 → patchConfig data = data) ∧
       (countMatches contentPattern.data data.data ≠ 0 →
         ∃ i, contentPattern.data.isPrefixOf (data.data.drop i) = true ∧
           (∀ j, j < i → contentPattern.data.isPrefixOf (data.data.drop j) = false) ∧
           (patchConfig data).data =
             data.data.take i ++ contentReplacement.data ++
               data.data.drop (i + contentPattern.data.length)))) ∧
    (w.configRead = none → exitStatus (run w).2 ≠ 0) ∧
    (∀ data, w.configRead = some data → w.configWriteOk = false →
      exitStatus (run w).2 ≠ 0) := by
  refine ⟨?_, ?_, ?_⟩
  · intro data hcr
    refine ⟨?_, ?_, ?_⟩
    · cases hcw : w.configWriteOk <;>
        simp [run, h1, h2, executeTailwindInitialization, h3, updateTailwindConfig, hcr, hcw]
    · intro h0
      apply String.ext
      exact replaceFirstAux_eq_self data.data h0
    · intro hne0
      exact replaceFirstAux_first_match contentReplacement.data data.data hne0
  · intro hnone
    simp [run, h1, h2, executeTailwindInitialization, h3, updateTailwindConfig, hnone,
          exitStatus]
  · intro data hcr hcwf
    simp [run, h1, h2, executeTailwindInitialization, h3, updateTailwindConfig, hcr, hcwf,
          exitStatus]

/-- Claim C6, witness: a concrete run writes the patched config back, and the
patch replaces the (sole, first) occurrence of the pattern. -/
theorem C6_witness :
    Event.writeFile FileId.tailwindConfig (patchConfig ("x content: [] y")) ∈
      (run ⟨some ("my-app"), fun _ => true, some ("x content: [] y"), true,
        some ("b"), true, ""⟩).1 ∧
    (∃ i, contentPattern.data.isPrefixOf (("x content: [] y").data.drop i) = true ∧
      (∀ j, j < i → contentPattern.data.isPrefixOf (("x content: [] y").data.drop j) = false) ∧
      (patchConfig ("x content: [] y")).data =
        ("x content: [] y").data.take i ++ contentReplacement.data ++
          ("x content: [] y").data.drop (i + contentPattern.data.length)) := by
  have h := C6_theorem ⟨some ("my-app"), fun _ => true, some ("x content: [] y"), true,
      some ("b"), true, ""⟩ ("my-app") rfl (by decide) rfl
  exact ⟨(h.1 _ rfl).1, (h.1 _ rfl).2.2 (by decide)⟩

/-- Claim C7, counterexample: on content with two occurrences of the pattern,
patching twice does not equal patching once, so the transformation is not
idempotent on all file contents. -/
theorem C7_counterexample :
    patchConfig (patchConfig ("content: []content: []")) ≠
      patchConfig ("content: []content: []") := by
  decide

/-- Claim C7 (amended): the replacement text contains no occurrence of the
empty content-list pattern, and on every content containing at most one
occurrence of the pattern (the shape of a freshly generated or an
already-patched config file) patching twice equals patching once. -/
theorem C7_amended :
    countMatches contentPattern.data contentReplacement.data = 0 ∧
    ∀ s : String, countMatches contentPattern.data s.data ≤ 1 →
      patchConfig (patchConfig s) = patchConfig s := by
  refine ⟨by decide, ?_⟩
  intro s hle
  have h0 : countMatches contentPattern.data (patchConfig s).data = 0 :=
    countMatches_replaceFirstAux_eq_zero (by decide) (by decide) (by decide)
      (by decide) (by decide) s.data hle
  apply String.ext
  exact replaceFirstAux_eq_self (patchConfig s).data h0

/-- Claim C7, witness: double-patching a one-occurrence config equals a single
patch. -/
theorem C7_witness :
    patchConfig (patchConfig ("module content: [] here")) =
      patchConfig ("module content: [] here") :=
  C7_amended.2 ("module content: [] here") (by decide)

/-- Claim C8: the stylesheet patch prepends exactly the three import directive
lines (base, components, utilities), then one blank line, then the original
content, unconditionally for every stylesheet content. -/
theorem C8_theorem (w : World) (d : String) (h1 : w.argv2 = some d) (h2 : d ≠ "")
    (h3 : w.cmdOk Cmd.initializeTailwind = true) (h4 : ∃ s, w.configRead = some s)
    (h5 : w.configWriteOk = true) :
    (∀ data, w.cssRead = some data →
       Event.writeFile FileId.indexCss (updatedCss data) ∈ (run w).1) ∧
    (∀ data : String, updatedCss data =
       importBase ++ "\n" ++ importComponents ++ "\n" ++ importUtilities ++ "\n" ++ "\n" ++ data) ∧
    '\n' ∉ importBase.data ∧ '\n' ∉ importComponents.data ∧ '\n' ∉ importUtilities.data := by
  refine ⟨?_, ?_, by decide, by decide, by decide⟩
  · intro data hsr
    obtain ⟨cs, hcs⟩ := h4
    cases hsw : w.cssWriteOk <;>
      simp [run, h1, h2, executeTailwindInitialization, h3, updateTailwindConfig, hcs, h5,
            updateIndexCss, hsr, hsw]
  · intro data
    have hdir : tailwindDirectives =
        importBase ++ "\n" ++ importComponents ++ "\n" ++ importUtilities ++ "\n" ++ "\n" := by
      decide
    show tailwindDirectives ++ data = _
    rw [hdir]

/-- Claim C8, witness: with stylesheet content body-braces the patched file is
written and equals the three directive lines, a blank line, then the original
content. -/
theorem C8_witness :
    Event.writeFile FileId.indexCss (updatedCss ("body\x7b\x7d")) ∈
      (run ⟨some ("my-app"), fun _ => true, some ("content: []"), true,
        some ("body\x7b\x7d"), true, ""⟩).1 ∧
    updatedCss ("body\x7b\x7d") =
      importBase ++ "\n" ++ importComponents ++ "\n" ++ importUtilities ++ "\n" ++ "\n" ++
        ("body\x7b\x7d") := by
  have h := C8_theorem ⟨some ("my-app"), fun _ => true, some ("content: []"), true,
      some ("body\x7b\x7d"), true, ""⟩ ("my-app") rfl (by decide) rfl
      ⟨("content: []"), rfl⟩ rfl
  exact ⟨h.1 _ rfl, h.2.1 _⟩

end ViteTsTw

namespace ViteTsTw

theorem toLower_eq_y {c : Char} (h : Char.toLower c = 'y') : c = 'y' ∨ c = 'Y' := by
  simp only [Char.toLower] at h
  split at h
  · rename_i hcond
    right
    have h1 : 65 ≤ c.toNat := hcond.1
    have h2 : c.toNat ≤ 90 := hcond.2
    have hc : c = Char.ofNat c.toNat := (Char.ofNat_toNat c).symm
    obtain ⟨n, hn⟩ : ∃ n, c.toNat = n := ⟨_, rfl⟩
    rw [hn] at h h1 h2 hc
    interval_cases n <;> revert h <;> rw [hc] <;> decide
  · exact Or.inl h

theorem jsToLower_eq_y {t : String} (h : jsToLower t = "y") : t = "y" ∨ t = "Y" := by
  have hdata : t.data.map Char.toLower = ['y'] := congrArg String.data h
  obtain ⟨l⟩ := t
  cases l with
  | nil => simp at hdata
  | cons c cs =>
    cases cs with
    | nil =>
      simp at hdata
      rcases toLower_eq_y hdata with h' | h' <;> subst h'
      · exact Or.inl rfl
      · exact Or.inr rfl
    | cons c2 cs2 => simp at hdata

theorem shouldInitializeGit_eq_true_iff (answer : String) :
    shouldInitializeGit answer = true ↔
      (jsTrim answer = "" ∨ jsTrim answer = "y" ∨ jsTrim answer = "Y") := by
  unfold shouldInitializeGit
  constructor
  · intro h
    simp only [Bool.or_eq_true, beq_iff_eq] at h
    rcases h with h | h
    · rcases jsToLower_eq_y h with h' | h'
      · exact Or.inr (Or.inl h')
      · exact Or.inr (Or.inr h')
    · exact Or.inl h
  · intro h
    simp only [Bool.or_eq_true, beq_iff_eq]
    rcases h with h | h | h
    · exact Or.inr h
    · exact Or.inl (by rw [h]; decide)
    · exact Or.inl (by rw [h]; decide)

theorem count_prompt_continueSetup (w : World) :
    List.count Event.prompt (continueSetup w).1 = 0 := rfl

theorem count_prompt_executeGitInitialization (w : World) :
    List.count Event.prompt (executeGitInitialization w).1 = 0 := by
  unfold executeGitInitialization
  cases hgi : w.cmdOk Cmd.initializeGit <;> cases hbr : w.cmdOk Cmd.changeBranch <;>
    simp [hgi, hbr, continueSetup]

theorem count_prompt_promptUser (w : World) :
    List.count Event.prompt (promptUser w).1 = 1 := by
  unfold promptUser
  cases hg : shouldInitializeGit w.answer <;>
    simp [hg, count_prompt_continueSetup w, count_prompt_executeGitInitialization w]

theorem count_prompt_updateIndexCss (w : World) :
    List.count Event.prompt (updateIndexCss w).1 ≤ 1 := by
  unfold updateIndexCss
  cases hsr : w.cssRead with
  | none => simp
  | some data =>
    cases hsw : w.cssWriteOk <;> simp [hsw, count_prompt_promptUser w]

theorem count_prompt_updateTailwindConfig (w : World) :
    List.count Event.prompt (updateTailwindConfig w).1 ≤ 1 := by
  unfold updateTailwindConfig
  cases hcr : w.configRead with
  | none => simp
  | some data =>
    cases hcw : w.configWriteOk <;> simp [hcw, count_prompt_updateIndexCss w]

theorem count_prompt_run_le_one (w : World) :
    List.count Event.prompt (run w).1 ≤ 1 := by
  unfold run
  cases ha : w.argv2 with
  | none => simp
  | some d =>
    by_cases hd : d = ""
    · simp [hd]
    · unfold executeTailwindInitialization
      cases htw : w.cmdOk Cmd.initializeTailwind <;>
        simp [hd, htw, count_prompt_updateTailwindConfig w]

/-- Claim C9: the replies "", "y" and "Y" select the version-control
initialization branch, "n" and every other reply whose trimmed form is none of
those selects the skip branch, and in every run the user is prompted at most
once (never re-prompted). -/
theorem C9_theorem :
    shouldInitializeGit ("") = true ∧ shouldInitializeGit ("y") = true ∧
    shouldInitializeGit ("Y") = true ∧ shouldInitializeGit ("n") = false ∧
    (∀ s : String, jsTrim s ≠ ("") → jsTrim s ≠ ("y") → jsTrim s ≠ ("Y") →
      shouldInitializeGit s = false) ∧
    (∀ w : World, List.count Event.prompt (run w).1 ≤ 1) := by
  refine ⟨by decide, by decide, by decide, by decide, ?_, count_prompt_run_le_one⟩
  intro s h1 h2 h3
  cases hg : shouldInitializeGit s with
  | false => rfl
  | true =>
    rcases (shouldInitializeGit_eq_true_iff s).mp hg with h | h | h
    exacts [absurd h h1, absurd h h2, absurd h h3]

/-- Claim C9, witness: the reply "no" selects the skip branch and a concrete
run prompts at most once. -/
theorem C9_witness :
    shouldInitializeGit ("no") = false ∧
    List.count Event.prompt (run ⟨some ("app"), fun _ => true, some ("content: []"), true,
      some ("x"), true, "no"⟩).1 ≤ 1 := by
  have h := C9_theorem
  exact ⟨h.2.2.2.2.1 ("no") (by decide) (by decide) (by decide),
         h.2.2.2.2.2 ⟨some ("app"), fun _ => true, some ("content: []"), true,
           some ("x"), true, "no"⟩⟩

theorem dropWhile_append_of_all {p : Char → Bool} :
    ∀ l m : List Char, (∀ x ∈ l, p x = true) →
      List.dropWhile p (l ++ m) = List.dropWhile p m := by
  intro l
  induction l with
  | nil => intro m _; rfl
  | cons c cs ih =>
    intro m hall
    have hc : p c = true := hall c (by simp)
    rw [List.cons_append, List.dropWhile_cons_of_pos hc]
    exact ih m (fun x hx => hall x (by simp [hx]))

theorem dropWhile_eq_nil_of_all {p : Char → Bool} :
    ∀ l : List Char, (∀ x ∈ l, p x = true) → List.dropWhile p l = [] := by
  intro l
  induction l with
  | nil => intro _; rfl
  | cons c cs ih =>
    intro hall
    rw [List.dropWhile_cons_of_pos (hall c (by simp))]
    exact ih (fun x hx => hall x (by simp [hx]))

theorem jsTrim_all_whitespace (s : String) (h : ∀ c ∈ s.data, jsWhitespace c = true) :
    jsTrim s = ("") := by
  unfold jsTrim
  rw [dropWhile_eq_nil_of_all s.data h]
  rfl

theorem jsTrim_padded (l r : List Char) (c : Char)
    (hl : ∀ x ∈ l, jsWhitespace x = true) (hr : ∀ x ∈ r, jsWhitespace x = true)
    (hc : jsWhitespace c = false) (s : String) (hs : s.data = l ++ c :: r) :
    jsTrim s = ⟨[c]⟩ := by
  unfold jsTrim
  rw [hs, dropWhile_append_of_all l (c :: r) hl,
      List.dropWhile_cons_of_neg (by simp [hc]), List.reverse_cons,
      dropWhile_append_of_all r.reverse [c] (fun x hx => hr x (by simpa using hx)),
      List.dropWhile_cons_of_neg (by simp [hc])]
  rfl

/-- Claim C10: the prompt reply is trimmed before interpretation: every
all-whitespace reply, and every reply that is y or Y surrounded by whitespace,
selects the version-control initialization branch, the same as the empty
reply. -/
theorem C10_theorem :
    (∀ s : String, (∀ c ∈ s.data, jsWhitespace c = true) → shouldInitializeGit s = true) ∧
    (∀ (s : String) (c : Char), (c = 'y' ∨ c = 'Y') →
      (∃ l r, s.data = l ++ c :: r ∧ (∀ x ∈ l, jsWhitespace x = true) ∧
        (∀ x ∈ r, jsWhitespace x = true)) →
      shouldInitializeGit s = true) := by
  constructor
  · intro s h
    exact (shouldInitializeGit_eq_true_iff s).mpr (Or.inl (jsTrim_all_whitespace s h))
  · intro s c hc hdecomp
    obtain ⟨l, r, hs, hl, hr⟩ := hdecomp
    have hcw : jsWhitespace c = false := by
      rcases hc with h | h <;> subst h <;> decide
    have ht := jsTrim_padded l r c hl hr hcw s hs
    apply (shouldInitializeGit_eq_true_iff s).mpr
    rcases hc with h | h <;> subst h
    · exact Or.inr (Or.inl ht)
    · exact Or.inr (Or.inr ht)

/-- Claim C10, witness: a whitespace-only reply (including a non-breaking
space one) and a whitespace-padded Y or y both select the initialization
branch. -/
theorem C10_witness :
    shouldInitializeGit ("  ") = true ∧ shouldInitializeGit ("\xa0") = true ∧
    shouldInitializeGit (" Y\t") = true ∧ shouldInitializeGit ("\xa0y\xa0") = true := by
  refine ⟨?_, ?_, ?_, ?_⟩
  · exact C10_theorem.1 ("  ") (by decide)
  · exact C10_theorem.1 ("\xa0") (by decide)
  · exact C10_theorem.2 (" Y\t") 'Y' (Or.inr rfl)
      ⟨[' '], ['\t'], by decide, by decide, by decide⟩
  · exact C10_theorem.2 ("\xa0y\xa0") 'y' (Or.inl rfl)
      ⟨['\xa0'], ['\xa0'], by decide, by decide, by decide⟩

end ViteTsTw
